import Mathlib

/-!
Shallow embedding of the trill language runtime core (ARC boxes, type
metadata and Any boxing, generic witness boxes, and the symbol demangler),
translated from the C++ sources, together with theorems settling the
specification claims.

Memory is modelled as a byte-addressed map `Nat → Nat` with a bump
allocator (`nextFree` is the allocation frontier); `trill_alloc` mirrors
the zero-filling allocator in runtime.cpp.  Pointers are plain addresses
(`Nat`); 64-bit little-endian words; pointer size 8 bytes as on LP64.
Fallible runtime entry points (those that can reach `trill_fatalError`)
return `Except String` carrying the fatal-error message.
-/

namespace Trill

/-- Byte-addressed memory: the byte stored at each address. -/
abbrev Mem := Nat → Nat

/-- Reads `n` consecutive bytes starting at address `a`. -/
def readBytes (m : Mem) (a : Nat) : Nat → List Nat
  | 0 => []
  | n + 1 => m a :: readBytes m (a + 1) n

/-- Writes the byte list `bs` at address `a`, leaving all other bytes. -/
def writeBytes (m : Mem) (a : Nat) (bs : List Nat) : Mem :=
  fun x => if a ≤ x ∧ x < a + bs.length then bs.getD (x - a) 0 else m x

/-- Models C `memcpy(dst, src, n)` on the byte map. -/
def memcpy (m : Mem) (dst src n : Nat) : Mem :=
  writeBytes m dst (readBytes m src n)

/-- Reads one 8-byte little-endian machine word at address `a`. -/
def readWord (m : Mem) (a : Nat) : Nat :=
  (readBytes m a 8).foldr (fun b acc => b + 256 * acc) 0

/-- Runtime heap state: the byte memory and the bump-allocation frontier. -/
structure RuntimeState where
  mem : Mem
  nextFree : Nat

/-- Model of `trill_alloc` (runtime.cpp): returns a fresh block of `size`
bytes, zero-filled by the `memset(ptr, 0, size)` in the source.  The
abstract machine never runs out of memory, so the "malloc failed" fatal
path is not represented. -/
def trill_alloc (st : RuntimeState) (size : Nat) : Nat × RuntimeState :=
  (st.nextFree,
   { mem := writeBytes st.mem st.nextFree (List.replicate size 0),
     nextFree := st.nextFree + size })

mutual

/-- Model of `struct TypeMetadata` (runtime/include, metadata_private.h).
The `id` field models the address of the descriptor object: the C++ code
compares descriptors by pointer, which this embedding renders as `id`
equality.  `fieldCount` is stored separately from `fields` exactly as in
the source, where the runtime trusts the compiler-emitted count. -/
inductive TypeMetadata : Type where
  | mk (id : Nat) (name : String) (fields : List FieldMetadata)
       (isReferenceType : Bool) (sizeInBits : Nat)
       (fieldCount : Nat) (pointerLevel : Nat) : TypeMetadata

/-- Model of `struct FieldMetadata`: field name, the field's type
descriptor, and the byte offset of the field inside the payload. -/
inductive FieldMetadata : Type where
  | mk (name : String) (typeMetadata : TypeMetadata) (offset : Nat) :
      FieldMetadata

end

def TypeMetadata.id : TypeMetadata → Nat
  | .mk i _ _ _ _ _ _ => i

def TypeMetadata.name : TypeMetadata → String
  | .mk _ n _ _ _ _ _ => n

def TypeMetadata.fields : TypeMetadata → List FieldMetadata
  | .mk _ _ f _ _ _ _ => f

def TypeMetadata.isReferenceType : TypeMetadata → Bool
  | .mk _ _ _ r _ _ _ => r

def TypeMetadata.sizeInBits : TypeMetadata → Nat
  | .mk _ _ _ _ s _ _ => s

def TypeMetadata.fieldCount : TypeMetadata → Nat
  | .mk _ _ _ _ _ c _ => c

def TypeMetadata.pointerLevel : TypeMetadata → Nat
  | .mk _ _ _ _ _ _ p => p

def FieldMetadata.name : FieldMetadata → String
  | .mk n _ _ => n

def FieldMetadata.typeMetadata : FieldMetadata → TypeMetadata
  | .mk _ t _ => t

def FieldMetadata.offset : FieldMetadata → Nat
  | .mk _ _ o => o

instance : Inhabited TypeMetadata :=
  ⟨TypeMetadata.mk 0 ("") [] false 0 0 0⟩

instance : Inhabited FieldMetadata :=
  ⟨FieldMetadata.mk ("") default 0⟩

/-- Denotes `&fields[index]`: the descriptor the C++ code hands out for a
field index (the runtime indexes the compiler-emitted array directly). -/
def fieldAt (t : TypeMetadata) (index : Nat) : FieldMetadata :=
  t.fields.getD index default

/-- Model of `TypeMetadata::fieldMetadata` (runtime/src/Metadata.cpp):
bounds-checks `index` against `fieldCount` and fatal-errors with the
message built by the `std::stringstream` in the source. -/
def TypeMetadata.fieldMetadata (t : TypeMetadata) (index : Nat) :
    Except String FieldMetadata :=
  if t.fieldCount ≤ index then
    .error ("field index " ++ toString index ++ " out of bounds for type "
            ++ t.name ++ " with " ++ toString t.fieldCount ++ " fields")
  else
    .ok (fieldAt t index)

/-- Model of `trill_getFieldMetadata` (runtime/src/Metadata.cpp): a thin
wrapper over `TypeMetadata::fieldMetadata`.  The non-null input assert is
subsumed by typing. -/
def trill_getFieldMetadata (t : TypeMetadata) (field : Nat) :
    Except String FieldMetadata :=
  t.fieldMetadata field

/-- Modelled from the spec: `sizeof(AnyBox)` on LP64.  The private header
`runtime/include/runtime/private/Metadata.h` declaring `AnyBox` for the
current runtime tree is not in the source; the spec's layout
`[ metadata pointer | payload ]` makes the header one pointer, 8 bytes. -/
def anyHeaderSize : Nat := 8

/-- An allocated `AnyBox`: its type-descriptor slot and its address.  The
payload bytes live in the byte memory at `addr + anyHeaderSize`. -/
structure AnyBox where
  typeMetadata : TypeMetadata
  addr : Nat

/-- Model of `AnyBox::value()`: the payload directly follows the header. -/
def AnyBox.valueAddr (a : AnyBox) : Nat := a.addr + anyHeaderSize

/-- Model of `AnyBox::create` / `trill_allocateAny`
(runtime/src/Metadata.cpp): allocates `sizeof(AnyBox) + sizeInBits` bytes
(the source uses the bit count itself as the byte count) and stores the
metadata pointer. -/
def trill_allocateAny (st : RuntimeState) (t : TypeMetadata) :
    AnyBox × RuntimeState :=
  let fullSize := anyHeaderSize + t.sizeInBits
  let r := trill_alloc st fullSize
  ({ typeMetadata := t, addr := r.1 }, r.2)

/-- Model of `trill_getAnyValuePtr`. -/
def trill_getAnyValuePtr (a : AnyBox) : Nat := a.valueAddr

/-- Model of `AnyBox::fieldValuePtr` (runtime/src/Metadata.cpp): for a
reference type the payload holds a pointer into the ARC box's payload,
which is dereferenced and asserted non-null; the field's byte offset is
then added to the base. -/
def AnyBox.fieldValuePtr (a : AnyBox) (st : RuntimeState) (fieldNum : Nat) :
    Except String Nat :=
  (a.typeMetadata.fieldMetadata fieldNum).bind fun fieldMeta =>
    if a.typeMetadata.isReferenceType then
      if readWord st.mem a.valueAddr = 0 then
        .error ("trill_assert failed: origPtr != nullptr")
      else .ok (readWord st.mem a.valueAddr + fieldMeta.offset)
    else .ok (a.valueAddr + fieldMeta.offset)

/-- Model of `trill_getAnyFieldValuePtr`. -/
def trill_getAnyFieldValuePtr (st : RuntimeState) (a : AnyBox)
    (fieldNum : Nat) : Except String Nat :=
  a.fieldValuePtr st fieldNum

/-- Model of `AnyBox::extractField` (runtime/src/Metadata.cpp): allocates
a fresh `Any` for the field's type, then byte-copies
`fieldTypeMeta->sizeInBits` bytes from the field's location into the new
payload (allocation happens before the source pointer is computed, as in
the C++ statement order). -/
def AnyBox.extractField (a : AnyBox) (st : RuntimeState) (fieldNum : Nat) :
    Except String (AnyBox × RuntimeState) :=
  (a.typeMetadata.fieldMetadata fieldNum).bind fun fieldMeta =>
    (a.fieldValuePtr (trill_allocateAny st fieldMeta.typeMetadata).2 fieldNum).bind
      fun src =>
        .ok ((trill_allocateAny st fieldMeta.typeMetadata).1,
             { (trill_allocateAny st fieldMeta.typeMetadata).2 with
               mem := memcpy (trill_allocateAny st fieldMeta.typeMetadata).2.mem
                        (trill_allocateAny st fieldMeta.typeMetadata).1.valueAddr
                        src fieldMeta.typeMetadata.sizeInBits })

/-- Model of `trill_extractAnyField`. -/
def trill_extractAnyField (st : RuntimeState) (a : AnyBox) (fieldNum : Nat) :
    Except String (AnyBox × RuntimeState) :=
  a.extractField st fieldNum

/-- Model of `AnyBox::updateField` (runtime/src/Metadata.cpp): compares
the field's descriptor against the new value's descriptor by pointer
(`id` here), fatal-erroring with the cast message on mismatch; otherwise
byte-copies `newType->sizeInBits` bytes from the new value's payload into
the field's location. -/
def AnyBox.updateField (a : AnyBox) (st : RuntimeState) (fieldNum : Nat)
    (newValue : AnyBox) : Except String RuntimeState :=
  (a.typeMetadata.fieldMetadata fieldNum).bind fun fieldMeta =>
    if fieldMeta.typeMetadata.id ≠ newValue.typeMetadata.id then
      .error ("checked cast failed: cannot convert "
              ++ fieldMeta.typeMetadata.name ++ " to " ++ newValue.typeMetadata.name)
    else
      (a.fieldValuePtr st fieldNum).bind fun dst =>
        .ok { st with
              mem := memcpy st.mem dst newValue.valueAddr
                       newValue.typeMetadata.sizeInBits }

/-- Model of `trill_updateAny`. -/
def trill_updateAny (st : RuntimeState) (a : AnyBox) (fieldNum : Nat)
    (newAny : AnyBox) : Except String RuntimeState :=
  a.updateField st fieldNum newAny

/-- Model of `AnyBox::isNil` (runtime/src/Metadata.cpp): pointer-typed
contents are never nil; otherwise the first machine word of the payload
is compared with zero. -/
def AnyBox.isNil (a : AnyBox) (st : RuntimeState) : Bool :=
  if 0 < a.typeMetadata.pointerLevel then false
  else readWord st.mem a.valueAddr == 0

/-- Model of `trill_anyIsNil`. -/
def trill_anyIsNil (st : RuntimeState) (a : AnyBox) : Bool :=
  a.isNil st

/-- Denotes the base address the field offsets of `a` are measured from:
the ARC payload a reference-typed `Any` points at, or the own payload of
a value-typed `Any`. -/
def fieldBase (st : RuntimeState) (a : AnyBox) : Nat :=
  if a.typeMetadata.isReferenceType then readWord st.mem a.valueAddr
  else a.valueAddr

/-- Wrap-around modulus of the 32-bit retain counter. -/
def uint32Mod : Nat := 2 ^ 32

/-- Model of `struct RefCountBox` (arc.cpp): the atomic 32-bit retain
count, the nullable deinitializer pointer (an opaque function address
here), and the address of the payload that follows the header. -/
structure RefCountBox where
  retainCount : Nat
  deinit : Option Nat
  payload : Nat

/-- Observable actions of an ARC operation: a deinitializer call with the
payload address, freeing the box, or a fatal error. -/
inductive ArcEvent : Type where
  | deinitCall (fn : Nat) (payloadAddr : Nat) : ArcEvent
  | freeBox : ArcEvent
  | fatal (msg : String) : ArcEvent

/-- Model of `RefCounted::isUniquelyReferenced` (arc.cpp): true iff the
retain count is exactly one. -/
def RefCountBox.isUniquelyReferenced (b : RefCountBox) : Bool :=
  b.retainCount == 1

/-- State of a box after the `fetch_add(1)` of `retain` (wrapping at
2^32). -/
def RefCountBox.retained (b : RefCountBox) : RefCountBox :=
  { b with retainCount := (b.retainCount + 1) % uint32Mod }

/-- State of a box after the `fetch_sub(1)` of `release` (wrapping at
2^32). -/
def RefCountBox.releasedBox (b : RefCountBox) : RefCountBox :=
  { b with retainCount := (b.retainCount + (uint32Mod - 1)) % uint32Mod }

/-- Model of `RefCounted::retain` (arc.cpp): `fetch_add(1)` (wrapping at
2^32), then a fatal error if the previous value was `UINT32_MAX`. -/
def RefCountBox.retain (b : RefCountBox) : RefCountBox × List ArcEvent :=
  if b.retainCount = uint32Mod - 1 then
    (b.retained,
     [ArcEvent.fatal ("retain count overflowed for " ++ toString b.payload)])
  else
    (b.retained, [])

/-- Model of `RefCounted::dealloc` (arc.cpp), run on the box after the
final decrement: fatal if the (already decremented) count is positive,
otherwise the deinitializer, when present, runs on the payload and the
box is freed. -/
def RefCountBox.dealloc (b : RefCountBox) : List ArcEvent :=
  if 0 < b.retainCount then
    [ArcEvent.fatal ("object deallocated with retain count > 0")]
  else
    match b.deinit with
    | some fn => [ArcEvent.deinitCall fn b.payload, ArcEvent.freeBox]
    | none => [ArcEvent.freeBox]

/-- Model of `RefCounted::release` (arc.cpp): `fetch_sub(1)` (wrapping at
2^32); if the previous value was 1 the box is deallocated, and if it was
0 a fatal underflow error is raised. -/
def RefCountBox.release (b : RefCountBox) : RefCountBox × List ArcEvent :=
  if b.retainCount = 1 then
    (b.releasedBox, b.releasedBox.dealloc)
  else if b.retainCount = 0 then
    (b.releasedBox,
     [ArcEvent.fatal ("retain count underflowed for " ++ toString b.payload)])
  else
    (b.releasedBox, [])

/-- Denotes `sizeof(RefCountBox)` on LP64: a 4-byte atomic counter padded
to the 8-byte alignment of the function pointer that follows it. -/
def refCountBoxSize : Nat := 16

/-- Model of `RefCounted::RefCounted(size, deinit)` /
`trill_allocateIndirectType` (arc.cpp): allocates header plus payload via
`trill_alloc` and constructs the header with retain count 0, returning
the payload pointer. -/
def trill_allocateIndirectType (st : RuntimeState) (size : Nat)
    (deinit : Option Nat) : RefCountBox × RuntimeState :=
  let r := trill_alloc st (refCountBoxSize + size)
  ({ retainCount := 0, deinit := deinit, payload := r.1 + refCountBoxSize },
   r.2)

/-- Model of `trill_retain`. -/
def trill_retain (b : RefCountBox) : RefCountBox × List ArcEvent :=
  b.retain

/-- Model of `trill_release`. -/
def trill_release (b : RefCountBox) : RefCountBox × List ArcEvent :=
  b.release

/-- Model of `trill_isUniquelyReferenced`. -/
def trill_isUniquelyReferenced (b : RefCountBox) : Bool :=
  b.isUniquelyReferenced

/-- Denotes `sizeof(GenericBox)` on LP64: two pointers
(`typeMetadata` and `witnessTable`, metadata_private.h). -/
def genericBoxHeaderSize : Nat := 16

/-- Denotes `sizeof(intptr_t)` on LP64. -/
def ptrSize : Nat := 8

/-- An allocated generic witness box: descriptor, witness table address,
and the box address. -/
structure GenericBox where
  typeMetadata : TypeMetadata
  witnessTable : Nat
  addr : Nat

/-- Model of `trill_createGenericBox` (Generics.cpp): allocates
`sizeof(GenericBox) + sizeInBits` bytes and stores both descriptor
slots, returning the whole box. -/
def trill_createGenericBox (st : RuntimeState) (t : TypeMetadata)
    (witnessTable : Nat) : GenericBox × RuntimeState :=
  let fullSize := genericBoxHeaderSize + t.sizeInBits
  let r := trill_alloc st fullSize
  ({ typeMetadata := t, witnessTable := witnessTable, addr := r.1 }, r.2)

/-- Model of `trill_genericBoxValuePtr` (Generics.cpp).  The source
computes `reinterpret_cast<intptr_t *>(box) + sizeof(GenericBox)`:
pointer arithmetic on `intptr_t *` advances `sizeof(GenericBox)`
*elements* of `sizeof(intptr_t)` bytes each, so the returned address is
`box + sizeof(GenericBox) * sizeof(intptr_t)`. -/
def trill_genericBoxValuePtr (boxAddr : Nat) : Nat :=
  boxAddr + genericBoxHeaderSize * ptrSize

/-!
Demangler (demangle.cpp).  The C++ readers mutate a `std::string` in
place and append to an output buffer; here each reader consumes a
`List Char` and returns the text it would have appended.  `front` of the
empty string is modelled as the NUL character, matching the
null-terminated buffer the C++ library exposes.  The mutually recursive
type grammar is driven by an explicit fuel argument; the top-level entry
point passes more fuel than any input can consume (each recursive descent
first consumes at least one character).  The two lookup tables included
from `SpecialTypes.def` and `MangledOperators.def` are not in the source
tree, so the decoder is parameterized over them; every claim settled here
is independent of their contents.
-/

/-- Models `str.front()` on a (possibly empty) C++ string. -/
def front (s : List Char) : Char := s.headD (Char.ofNat 0)

/-- Value of a string of decimal digits. -/
def digitsToNat (ds : List Char) : Nat :=
  ds.foldl (fun a c => a * 10 + (c.toNat - 48)) 0

/-- Model of `readNum` (demangle.cpp): `strtol`, which consumes a maximal
run of leading digits and fails when there is none.  The mangled alphabet
never exercises the sign or whitespace handling of `strtol`, which is not
modelled. -/
def readNum (s : List Char) : Option (Nat × List Char) :=
  let ds := s.takeWhile fun c => c.isDigit
  if ds.isEmpty then none
  else some (digitsToNat ds, s.drop ds.length)

/-- Model of `readName` (demangle.cpp): a decimal length prefix followed
by that many characters. -/
def readName (s : List Char) : Option (String × List Char) := do
  let (num, s1) ← readNum s
  if s1.length < num then none
  else some (String.mk (s1.take num), s1.drop num)

mutual

/-- Model of `readType` (demangle.cpp), parameterized by the
`SpecialTypes.def` table. -/
def readType (special : Char → Option String) :
    Nat → List Char → Option (String × List Char)
  | 0, _ => none
  | fuel + 1, s => do
    let (stars, s) ←
      if front s = 'P' then do
        let (num, s1) ← readNum (s.drop 1)
        if front s1 = 'T' then
          some (String.mk (List.replicate num '*'), s1.drop 1)
        else none
      else some (("" : String), s)
    if front s = 'F' then do
      let (args, s1) ← readTypeList special fuel (s.drop 1)
      let (ret, s2) ← readType special fuel (s1.drop 1)
      some (stars ++ "(" ++ String.intercalate (", ") args ++ ") -> " ++ ret, s2)
    else if front s = 'A' then do
      let (u, s1) ← readType special fuel (s.drop 1)
      some (stars ++ "[" ++ u ++ "]", s1)
    else if front s = 't' then do
      let (fs, s1) ← readTupleList special fuel (s.drop 1)
      some (stars ++ "(" ++ String.intercalate (", ") fs ++ ")", s1.drop 1)
    else if front s = 's' then
      let s1 := s.drop 1
      if front s1 = 'i' then
        match readNum (s1.drop 1) with
        | some (num, s2) => some (stars ++ "Int" ++ toString num, s2)
        | none => some (stars ++ "Int", s1.drop 1)
      else
        match special (front s1) with
        | some name => some (stars ++ name, s1.drop 1)
        | none => none
    else do
      let (n, s1) ← readName s
      some (stars ++ n, s1)

/-- Models the `while (str.front() != 'R')` argument loop of the
function-type branch of `readType`. -/
def readTypeList (special : Char → Option String) :
    Nat → List Char → Option (List String × List Char)
  | 0, _ => none
  | fuel + 1, s =>
    if front s = 'R' then some ([], s)
    else do
      let (t, s1) ← readType special fuel s
      let (rest, s2) ← readTypeList special fuel s1
      some (t :: rest, s2)

/-- Models the `while (str.front() != 'T')` field loop of the tuple
branch of `readType`. -/
def readTupleList (special : Char → Option String) :
    Nat → List Char → Option (List String × List Char)
  | 0, _ => none
  | fuel + 1, s =>
    if front s = 'T' then some ([], s)
    else do
      let (t, s1) ← readType special fuel s
      let (rest, s2) ← readTupleList special fuel s1
      some (t :: rest, s2)

end

/-- Model of `readArg` (demangle.cpp): `'S' name type` single-label,
`'E' name name type` external plus internal, or `name type` with the
implicit label `_`. -/
def readArg (special : Char → Option String) (fuel : Nat) (s : List Char) :
    Option (String × List Char) := do
  let (isSingleName, external, s) ←
    if front s = 'S' then some (true, ("" : String), s.drop 1)
    else if front s = 'E' then do
      let (ext, s1) ← readName (s.drop 1)
      some (false, ext, s1)
    else some (false, ("" : String), s)
  let (internal, s) ← readName s
  let (ty, s) ← readType special fuel s
  let labelPart :=
    if isSingleName then ("" : String)
    else (if external.isEmpty then ("_" : String) else external) ++ " "
  some (labelPart ++ internal ++ ": " ++ ty, s)

/-- Models the `while (!symbol.empty() && symbol.front() != 'R')`
argument loop of `demangleFunction`. -/
def readArgList (special : Char → Option String) :
    Nat → List Char → Option (List String × List Char)
  | 0, _ => none
  | fuel + 1, s =>
    if s.isEmpty ∨ front s = 'R' then some ([], s)
    else do
      let (a, s1) ← readArg special fuel s
      let (rest, s2) ← readArgList special fuel s1
      some (a :: rest, s2)

/-- Model of `demangleFunction` (demangle.cpp), parameterized by the two
lookup tables; `s` still starts with the `'F'` kind character, which is
dropped first as in the source. -/
def demangleFunction (special ops : Char → Option String) (fuel : Nat)
    (s : List Char) : Option String := do
  let s := s.drop 1
  if front s = 'D' then do
    let (t, _) ← readType special fuel (s.drop 1)
    some (t ++ ".deinit")
  else if front s = 'g' then do
    let (t, s1) ← readType special fuel (s.drop 1)
    let (n, s2) ← readName s1
    let (t2, _) ← readType special fuel s2
    some ("getter for " ++ t ++ "." ++ n ++ ": " ++ t2)
  else if front s = 's' then do
    let (t, s1) ← readType special fuel (s.drop 1)
    let (n, s2) ← readName s1
    let (t2, _) ← readType special fuel s2
    some ("setter for " ++ t ++ "." ++ n ++ ": " ++ t2)
  else do
    let (head, s) ←
      if front s = 'M' then do
        let (t, s1) ← readType special fuel (s.drop 1)
        let (n, s2) ← readName s1
        some (t ++ "." ++ n, s2)
      else if front s = 'm' then do
        let (t, s1) ← readType special fuel (s.drop 1)
        let (n, s2) ← readName s1
        some ("static " ++ t ++ "." ++ n, s2)
      else if front s = 'I' then do
        let (t, s1) ← readType special fuel (s.drop 1)
        some (t ++ ".init", s1)
      else if front s = 'S' then do
        let (t, s1) ← readType special fuel (s.drop 1)
        some (t ++ ".subscript", s1)
      else if front s = 'O' then
        match ops (front (s.drop 1)) with
        | some opStr => some (opStr, s.drop 2)
        | none => none
      else do
        let (n, s1) ← readName s
        some (n, s1)
    let (args, s) ← readArgList special fuel s
    let withArgs := head ++ "(" ++ String.intercalate (", ") args ++ ")"
    let (withRet, s) ←
      if front s = 'R' then do
        let (t, s1) ← readType special fuel (s.drop 1)
        some (withArgs ++ " -> " ++ t, s1)
      else some (withArgs, s)
    if front s = 'C' then some (withRet ++ " (closure #1)")
    else some withRet

/-- Model of `demangleType` (demangle.cpp). -/
def demangleType (special : Char → Option String) (fuel : Nat)
    (s : List Char) : Option String := do
  let (t, _) ← readType special fuel (s.drop 1)
  some t

/-- Model of `demangleGlobal` (demangle.cpp). -/
def demangleGlobal (kind : String) (s : List Char) : Option String := do
  let (n, _) ← readName (s.drop 1)
  some (kind ++ " for global " ++ n)

/-- Model of `demangleWitnessTable` (demangle.cpp). -/
def demangleWitnessTable (s : List Char) : Option String := do
  let (a, s1) ← readName (s.drop 1)
  let (b, _) ← readName s1
  some ("witness table for " ++ a ++ " to " ++ b)

/-- Model of `demangleProtocol` (demangle.cpp). -/
def demangleProtocol (s : List Char) : Option String := do
  let (n, _) ← readName (s.drop 1)
  some ("protocol " ++ n)

/-- Model of `demangle` (demangle.cpp): strips the `_W` or `__W` prefix
and dispatches on the kind character.  The `'C'` closure kind is
unimplemented in the source (`assert(false)` / failure), modelled as
failure. -/
def demangleCore (special ops : Char → Option String) (fuel : Nat)
    (s : List Char) : Option String :=
  let stripped : Option (List Char) :=
    if s.take 2 = ['_', 'W'] then some (s.drop 2)
    else if s.take 3 = ['_', '_', 'W'] then some (s.drop 3)
    else none
  match stripped with
  | none => none
  | some s =>
    if front s = 'C' then none
    else if front s = 'F' then demangleFunction special ops fuel s
    else if front s = 'T' then demangleType special fuel s
    else if front s = 'g' then demangleGlobal ("accessor") s
    else if front s = 'G' then demangleGlobal ("initializer") s
    else if front s = 'W' then demangleWitnessTable s
    else if front s = 'P' then demangleProtocol s
    else none

/-- Model of `trill_demangle` (demangle.cpp): `none` stands for the null
pointer returned on failure. -/
def trill_demangle (special ops : Char → Option String) (symbol : String) :
    Option String :=
  demangleCore special ops (symbol.length + 1) symbol.toList

/-- Empty stand-in for the two missing lookup tables; the claims settled
below hold for every table. -/
def noTable : Char → Option String := fun _ => none

/-!
Concrete fixtures used to evaluate the theorems on explicit inputs: a
few compiler-style type descriptors and runtime states.
-/

/-- Sample descriptor: a primitive 8-byte integer type. -/
def tInt : TypeMetadata := .mk 1 ("Int") [] false 8 0 0

/-- Sample field descriptor `x: Int` at offset 0. -/
def fldX : FieldMetadata := .mk ("x") tInt 0

/-- Sample field descriptor `y: Int` at offset 8. -/
def fldY : FieldMetadata := .mk ("y") tInt 8

/-- Sample descriptor: a two-field value struct. -/
def tPoint : TypeMetadata := .mk 2 ("Point") [fldX, fldY] false 16 2 0

/-- Sample descriptor: a pointer type (`pointerLevel = 1`). -/
def tIntPtr : TypeMetadata := .mk 3 ("*Int") [] false 8 0 1

/-- Sample descriptor: a reference (indirect) type with two fields. -/
def tBoxRef : TypeMetadata := .mk 4 ("Box") [fldX, fldY] true 16 2 0

/-- Sample descriptor whose `sizeInBits` is 64. -/
def tInt64 : TypeMetadata := .mk 5 ("Int64") [] false 64 0 0

/-- Sample descriptor whose `sizeInBits` is 8. -/
def tInt8 : TypeMetadata := .mk 6 ("Int8") [] false 8 0 0

/-- Runtime state with all-zero memory and an empty heap. -/
def st0 : RuntimeState := ⟨fun _ => 0, 0⟩

/-- Runtime state with non-trivial memory contents and 100 bytes already
allocated. -/
def stG : RuntimeState := ⟨fun x => x % 256, 100⟩

/-- Memory holding the pointer word 40 at address 8 (a reference-typed
payload pointing at an ARC payload at address 40). -/
def memRef : Mem := fun x => if x = 8 then 40 else 0

/-- Runtime state for the reference-typed fixtures. -/
def stRef : RuntimeState := ⟨memRef, 100⟩

/-!
Helper lemmas about the byte-memory primitives.
-/

theorem exceptBind_ok {ε α β : Type} (a : α) (f : α → Except ε β) :
    (Except.ok a : Except ε α).bind f = f a := rfl

theorem readBytes_length (m : Mem) :
    ∀ (n a : Nat), (readBytes m a n).length = n := by
  intro n
  induction n with
  | zero => intro a; rfl
  | succ n ih => intro a; simp [readBytes, ih]

theorem readBytes_getD (m : Mem) :
    ∀ (n a k : Nat), k < n → (readBytes m a n).getD k 0 = m (a + k) := by
  intro n
  induction n with
  | zero => intro a k h; omega
  | succ n ih =>
    intro a k h
    cases k with
    | zero => simp [readBytes]
    | succ k =>
      have : a + 1 + k = a + (k + 1) := by omega
      simpa [readBytes, this] using ih (a + 1) k (by omega)

theorem readBytes_congr {m1 m2 : Mem} :
    ∀ (n a : Nat), (∀ k, k < n → m1 (a + k) = m2 (a + k)) →
      readBytes m1 a n = readBytes m2 a n := by
  intro n
  induction n with
  | zero => intro a _; rfl
  | succ n ih =>
    intro a h
    simp only [readBytes]
    have h0 : m1 a = m2 a := by simpa using h 0 (by omega)
    have ht : readBytes m1 (a + 1) n = readBytes m2 (a + 1) n :=
      ih (a + 1) fun k hk => by
        have he : a + 1 + k = a + (k + 1) := by omega
        rw [he]; exact h (k + 1) (by omega)
    rw [h0, ht]

theorem writeBytes_out {m : Mem} {a x : Nat} {bs : List Nat}
    (h : ¬ (a ≤ x ∧ x < a + bs.length)) : writeBytes m a bs x = m x :=
  if_neg h

theorem writeBytes_lt {m : Mem} {a x : Nat} {bs : List Nat}
    (h : x < a) : writeBytes m a bs x = m x :=
  writeBytes_out (by omega)

theorem writeBytes_ge {m : Mem} {a x : Nat} {bs : List Nat}
    (h : a + bs.length ≤ x) : writeBytes m a bs x = m x :=
  writeBytes_out (by omega)

theorem writeBytes_in {m : Mem} {a x : Nat} {bs : List Nat}
    (h1 : a ≤ x) (h2 : x < a + bs.length) :
    writeBytes m a bs x = bs.getD (x - a) 0 :=
  if_pos ⟨h1, h2⟩

theorem getD_replicate :
    ∀ (n k : Nat), (List.replicate n (0 : Nat)).getD k 0 = 0 := by
  intro n
  induction n with
  | zero => intro k; cases k <;> rfl
  | succ n ih => intro k; cases k with
    | zero => rfl
    | succ k => exact ih k

theorem readWord_congr {m1 m2 : Mem} {a : Nat}
    (h : ∀ k, k < 8 → m1 (a + k) = m2 (a + k)) :
    readWord m1 a = readWord m2 a := by
  unfold readWord
  rw [readBytes_congr 8 a h]

theorem readWord_zero {m : Mem} {a : Nat}
    (h : ∀ k, k < 8 → m (a + k) = 0) : readWord m a = 0 := by
  have hz : readWord m a = readWord (fun _ => 0) a :=
    readWord_congr fun k hk => by rw [h k hk]
  rw [hz]
  rfl

theorem alloc_mem_lt {st : RuntimeState} {size x : Nat}
    (h : x < st.nextFree) : (trill_alloc st size).2.mem x = st.mem x :=
  writeBytes_lt h

theorem alloc_mem_in {st : RuntimeState} {size x : Nat}
    (h1 : st.nextFree ≤ x) (h2 : x < st.nextFree + size) :
    (trill_alloc st size).2.mem x = 0 := by
  have hlen : (List.replicate size (0 : Nat)).length = size := by simp
  have := @writeBytes_in st.mem st.nextFree x (List.replicate size 0)
      h1 (by rw [hlen]; exact h2)
  simpa [trill_alloc, getD_replicate] using this

/-- Round-trip copy lemma: starting from memory `m0` with allocation
frontier `F`, zero-filling a fresh block at `F`, copying `n` bytes from a
region `[D, D + n)` that lies below `F` into the fresh payload at
`F + anyHeaderSize`, and copying them back, leaves every byte below `F`
unchanged. -/
theorem cow_roundtrip (m0 : Mem) (F D n : Nat)
    (pad : Nat) (x : Nat) (hx : x < F) :
    memcpy (memcpy (writeBytes m0 F (List.replicate pad 0))
        (F + anyHeaderSize) D n) D (F + anyHeaderSize) n x = m0 x := by
  have hm1lt : ∀ y, y < F →
      writeBytes m0 F (List.replicate pad 0) y = m0 y :=
    fun y hy => writeBytes_lt hy
  by_cases hmem : D ≤ x ∧ x < D + n
  · rw [memcpy, writeBytes_in hmem.1 (by rw [readBytes_length]; exact hmem.2),
        readBytes_getD _ n _ (x - D) (by omega)]
    rw [memcpy, writeBytes_in (show F + anyHeaderSize ≤ F + anyHeaderSize + (x - D) by omega)
          (by rw [readBytes_length]; omega)]
    have he : F + anyHeaderSize + (x - D) - (F + anyHeaderSize) = x - D := by omega
    rw [he, readBytes_getD _ n _ (x - D) (by omega)]
    have he2 : D + (x - D) = x := by omega
    rw [he2]
    exact hm1lt x hx
  · rw [memcpy, writeBytes_out (by rw [readBytes_length]; exact hmem)]
    rw [memcpy, writeBytes_lt (show x < F + anyHeaderSize by omega)]
    exact hm1lt x hx

theorem release_fst (b : RefCountBox) :
    (trill_release b).1 = b.releasedBox := by
  unfold trill_release RefCountBox.release
  split
  · rfl
  · split
    · rfl
    · rfl

/-!
Claim theorems.
-/

set_option maxRecDepth 4096

theorem retain_fst (b : RefCountBox) :
    (trill_retain b).1 = b.retained := by
  unfold trill_retain RefCountBox.retain
  split
  · rfl
  · rfl

theorem uniq_iff (b : RefCountBox) :
    trill_isUniquelyReferenced b = true ↔ b.retainCount = 1 := by
  simp [trill_isUniquelyReferenced, RefCountBox.isUniquelyReferenced]

theorem uniq_false_iff (b : RefCountBox) :
    trill_isUniquelyReferenced b = false ↔ ¬ b.retainCount = 1 := by
  simp [trill_isUniquelyReferenced, RefCountBox.isUniquelyReferenced]

/-- Claim C1, counterexample: `RefCounted::RefCounted` constructs the box
with `RefCountBox(0, deinit)`, so immediately after
`trill_allocateIndirectType` returns the retain count is 0 and
`trill_isUniquelyReferenced` is false — not true as the claim's first
step asserts. -/
theorem C1_cex :
    trill_isUniquelyReferenced (trill_allocateIndirectType st0 16 none).1
      = false := rfl

/-- Claim C1, amended: a box fresh from `trill_allocateIndirectType` has
retain count 0, so `trill_isUniquelyReferenced` is false; after one
`trill_retain` it is true; after a second `trill_retain` it is false;
after one subsequent `trill_release` it is true again — and in general
`isUniquelyReferenced` holds iff the current retain count is exactly 1. -/
theorem C1_thm (st : RuntimeState) (size : Nat) (deinit : Option Nat) :
    (trill_allocateIndirectType st size deinit).1.retainCount = 0
    ∧ trill_isUniquelyReferenced
        (trill_allocateIndirectType st size deinit).1 = false
    ∧ trill_isUniquelyReferenced
        (trill_retain (trill_allocateIndirectType st size deinit).1).1 = true
    ∧ trill_isUniquelyReferenced
        (trill_retain
          (trill_retain (trill_allocateIndirectType st size deinit).1).1).1
        = false
    ∧ trill_isUniquelyReferenced
        (trill_release
          (trill_retain
            (trill_retain
              (trill_allocateIndirectType st size deinit).1).1).1).1 = true
    ∧ ∀ b : RefCountBox, b.isUniquelyReferenced = true ↔ b.retainCount = 1 := by
  have hM : uint32Mod = 4294967296 := by norm_num [uint32Mod]
  have hb0 : (trill_allocateIndirectType st size deinit).1.retainCount = 0 := rfl
  have hb1 :
      (trill_retain (trill_allocateIndirectType st size deinit).1).1.retainCount
        = 1 := by
    rw [retain_fst]
    show ((trill_allocateIndirectType st size deinit).1.retainCount + 1)
          % uint32Mod = 1
    rw [hb0]
    exact Nat.mod_eq_of_lt (by omega)
  have hb2 :
      (trill_retain
        (trill_retain
          (trill_allocateIndirectType st size deinit).1).1).1.retainCount
        = 2 := by
    rw [retain_fst]
    show ((trill_retain
            (trill_allocateIndirectType st size deinit).1).1.retainCount + 1)
          % uint32Mod = 2
    rw [hb1]
    exact Nat.mod_eq_of_lt (by omega)
  have hb3 :
      (trill_release
        (trill_retain
          (trill_retain
            (trill_allocateIndirectType st size deinit).1).1).1).1.retainCount
        = 1 := by
    rw [release_fst]
    show ((trill_retain
            (trill_retain
              (trill_allocateIndirectType st size deinit).1).1).1.retainCount
            + (uint32Mod - 1)) % uint32Mod = 1
    rw [hb2, show 2 + (uint32Mod - 1) = 1 + uint32Mod from by omega,
        Nat.add_mod_right]
    exact Nat.mod_eq_of_lt (by omega)
  refine ⟨hb0, ?_, ?_, ?_, ?_, fun b => ?_⟩
  · rw [uniq_false_iff, hb0]; omega
  · rw [uniq_iff, hb1]
  · rw [uniq_false_iff, hb2]; omega
  · rw [uniq_iff, hb3]
  · simp [RefCountBox.isUniquelyReferenced]

/-- Claim C2: `trill_release` decrements the retain count; when the
previous value was 1 it invokes the deinitializer with the payload
pointer iff the deinitializer is non-null and then frees the box (a box
with null deinit is freed without any deinitializer call and without a
fatal error); when the previous value was 0 it raises the underflow
fatal error and does not free the box. -/
theorem C2_thm (b : RefCountBox) (h : b.retainCount < uint32Mod) :
    (1 ≤ b.retainCount →
      (trill_release b).1.retainCount = b.retainCount - 1)
    ∧ (b.retainCount = 1 →
        (trill_release b).2 =
          (match b.deinit with
           | some fn => [ArcEvent.deinitCall fn b.payload, ArcEvent.freeBox]
           | none => [ArcEvent.freeBox]))
    ∧ (b.retainCount = 0 →
        (trill_release b).2 =
          [ArcEvent.fatal ("retain count underflowed for "
            ++ toString b.payload)]
        ∧ ArcEvent.freeBox ∉ (trill_release b).2) := by
  have hM : uint32Mod = 4294967296 := by norm_num [uint32Mod]
  refine ⟨?_, ?_, ?_⟩
  · intro h1
    rw [release_fst]
    show (b.retainCount + (uint32Mod - 1)) % uint32Mod = b.retainCount - 1
    have he : b.retainCount + (uint32Mod - 1)
        = (b.retainCount - 1) + 1 * uint32Mod := by omega
    rw [he, Nat.add_mul_mod_self_right]
    exact Nat.mod_eq_of_lt (by omega)
  · intro h1
    have hz : (RefCountBox.releasedBox b).retainCount = 0 := by
      show (b.retainCount + (uint32Mod - 1)) % uint32Mod = 0
      rw [show b.retainCount + (uint32Mod - 1) = uint32Mod from by omega,
          Nat.mod_self]
    have hsnd : (trill_release b).2 = (RefCountBox.releasedBox b).dealloc := by
      unfold trill_release RefCountBox.release
      rw [if_pos h1]
    rw [hsnd]
    unfold RefCountBox.dealloc
    rw [if_neg (by omega)]
    cases hd : b.deinit <;> simp [RefCountBox.releasedBox, hd]
  · intro h0
    have hsnd : (trill_release b).2 =
        [ArcEvent.fatal ("retain count underflowed for "
          ++ toString b.payload)] := by
      unfold trill_release RefCountBox.release
      rw [if_neg (by omega), if_pos h0]
    rw [hsnd]
    exact ⟨rfl, by simp⟩

/-- Claim C2, witness: evaluating `trill_release` at a box with retain
count 1 and no deinitializer: the count drops to 0, the box is freed
with no deinitializer call and no fatal error. -/
theorem C2_wit :
    (⟨1, none, 24⟩ : RefCountBox).retainCount < uint32Mod
    ∧ ((1 ≤ (⟨1, none, 24⟩ : RefCountBox).retainCount →
        (trill_release ⟨1, none, 24⟩).1.retainCount
          = (⟨1, none, 24⟩ : RefCountBox).retainCount - 1)
      ∧ ((⟨1, none, 24⟩ : RefCountBox).retainCount = 1 →
          (trill_release ⟨1, none, 24⟩).2 =
            (match (⟨1, none, 24⟩ : RefCountBox).deinit with
             | some fn =>
                 [ArcEvent.deinitCall fn (⟨1, none, 24⟩ : RefCountBox).payload,
                  ArcEvent.freeBox]
             | none => [ArcEvent.freeBox]))
      ∧ ((⟨1, none, 24⟩ : RefCountBox).retainCount = 0 →
          (trill_release ⟨1, none, 24⟩).2 =
            [ArcEvent.fatal ("retain count underflowed for "
              ++ toString (⟨1, none, 24⟩ : RefCountBox).payload)]
          ∧ ArcEvent.freeBox ∉ (trill_release ⟨1, none, 24⟩).2)) :=
  ⟨by decide, C2_thm ⟨1, none, 24⟩ (by decide)⟩

/-- Claim C10: the counter is modified before the overflow and underflow
checks: when `trill_retain` reports the overflow fatal error the count
has already wrapped from UINT32_MAX to 0, and when `trill_release`
reports the underflow fatal error the count has already wrapped from 0
to UINT32_MAX. -/
theorem C10_thm (b c : RefCountBox)
    (hb : b.retainCount = uint32Mod - 1) (hc : c.retainCount = 0) :
    (trill_retain b).1.retainCount = 0
    ∧ (trill_retain b).2 =
        [ArcEvent.fatal ("retain count overflowed for " ++ toString b.payload)]
    ∧ (trill_release c).1.retainCount = uint32Mod - 1
    ∧ (trill_release c).2 =
        [ArcEvent.fatal ("retain count underflowed for "
          ++ toString c.payload)] := by
  have hM : uint32Mod = 4294967296 := by norm_num [uint32Mod]
  refine ⟨?_, ?_, ?_, ?_⟩
  · unfold trill_retain RefCountBox.retain
    rw [if_pos hb]
    show (b.retainCount + 1) % uint32Mod = 0
    rw [show b.retainCount + 1 = uint32Mod from by omega, Nat.mod_self]
  · unfold trill_retain RefCountBox.retain
    rw [if_pos hb]
  · unfold trill_release RefCountBox.release
    rw [if_neg (by omega), if_pos hc]
    show (c.retainCount + (uint32Mod - 1)) % uint32Mod = uint32Mod - 1
    rw [hc, Nat.zero_add]
    exact Nat.mod_eq_of_lt (by omega)
  · unfold trill_release RefCountBox.release
    rw [if_neg (by omega), if_pos hc]

/-- Claim C10, witness: evaluating retain at count UINT32_MAX and
release at count 0, observing the wrapped counters and the fatal
events. -/
theorem C10_wit :
    (⟨4294967295, none, 32⟩ : RefCountBox).retainCount = uint32Mod - 1
    ∧ (⟨0, some 3, 48⟩ : RefCountBox).retainCount = 0
    ∧ ((trill_retain ⟨4294967295, none, 32⟩).1.retainCount = 0
      ∧ (trill_retain ⟨4294967295, none, 32⟩).2 =
          [ArcEvent.fatal ("retain count overflowed for "
            ++ toString (⟨4294967295, none, 32⟩ : RefCountBox).payload)]
      ∧ (trill_release ⟨0, some 3, 48⟩).1.retainCount = uint32Mod - 1
      ∧ (trill_release ⟨0, some 3, 48⟩).2 =
          [ArcEvent.fatal ("retain count underflowed for "
            ++ toString (⟨0, some 3, 48⟩ : RefCountBox).payload)]) :=
  ⟨by decide, rfl, C10_thm ⟨4294967295, none, 32⟩ ⟨0, some 3, 48⟩ (by decide) rfl⟩

/-- Claim C3, counterexample: for a descriptor with `sizeInBits = 64`,
`trill_allocateAny` grows the heap by `sizeof(AnyBox) + 64` bytes (the
source passes `sizeInBits` itself to the allocator), not by
`sizeof(AnyBox) + 64 / 8` as the claim's `sizeInBytes` formula states. -/
theorem C3_cex :
    (trill_allocateAny st0 tInt64).2.nextFree - st0.nextFree
      ≠ anyHeaderSize + tInt64.sizeInBits / 8 := by decide

/-- Claim C3, amended: `trill_allocateAny(T)` returns a box whose
metadata slot is `T` and whose total allocation size is
`sizeof(AnyBox) + T.sizeInBits` — the `sizeInBits` value is used
directly as the byte count — leaving all previously allocated bytes
unchanged. -/
theorem C3_thm (st : RuntimeState) (t : TypeMetadata) :
    (trill_allocateAny st t).1.typeMetadata = t
    ∧ (trill_allocateAny st t).1.addr = st.nextFree
    ∧ (trill_allocateAny st t).2.nextFree
        = st.nextFree + (anyHeaderSize + t.sizeInBits)
    ∧ ∀ x, x < st.nextFree → (trill_allocateAny st t).2.mem x = st.mem x := by
  refine ⟨rfl, rfl, rfl, ?_⟩
  intro x hx
  exact writeBytes_lt hx

/-- Claim C3, witness: evaluating the amended statement on a 100-byte
heap and the `Int64` descriptor. -/
theorem C3_wit :
    (trill_allocateAny stG tInt64).1.typeMetadata = tInt64
    ∧ (trill_allocateAny stG tInt64).2.nextFree
        = stG.nextFree + (anyHeaderSize + tInt64.sizeInBits)
    ∧ (0 : Nat) < stG.nextFree
    ∧ (trill_allocateAny stG tInt64).2.mem 0 = stG.mem 0 :=
  ⟨(C3_thm stG tInt64).1, (C3_thm stG tInt64).2.2.1, by decide,
   (C3_thm stG tInt64).2.2.2 0 (by decide)⟩

/-- Claim C5: the claim (and the spec) say `trill_genericBoxValuePtr`
returns `box + sizeof(GenericBox)`, the payload address; the source
performs the pointer arithmetic on `intptr_t *`, so it actually returns
`box + sizeof(GenericBox) * sizeof(intptr_t)` = `box + 128` on LP64 —
outside the 24-byte allocation of a box with an 8-byte payload, and not
the payload address `box + 16`. -/
theorem C5_thm :
    (trill_createGenericBox st0 tInt8 0).1.addr = 0
    ∧ (trill_createGenericBox st0 tInt8 0).2.nextFree = 24
    ∧ trill_genericBoxValuePtr (trill_createGenericBox st0 tInt8 0).1.addr
        = 128
    ∧ ¬ trill_genericBoxValuePtr (trill_createGenericBox st0 tInt8 0).1.addr
        < (trill_createGenericBox st0 tInt8 0).2.nextFree
    ∧ trill_genericBoxValuePtr (trill_createGenericBox st0 tInt8 0).1.addr
        ≠ (trill_createGenericBox st0 tInt8 0).1.addr + genericBoxHeaderSize := by
  decide

/-- Claim C6: `trill_anyIsNil` returns false whenever the metadata's
`pointerLevel` is positive, regardless of the stored word; otherwise it
returns true iff the first machine word of the payload is zero. -/
theorem C6_thm (st : RuntimeState) (a : AnyBox) :
    (0 < a.typeMetadata.pointerLevel → trill_anyIsNil st a = false)
    ∧ (a.typeMetadata.pointerLevel = 0 →
        (trill_anyIsNil st a = true ↔ readWord st.mem a.valueAddr = 0)) := by
  constructor
  · intro h
    unfold trill_anyIsNil AnyBox.isNil
    rw [if_pos h]
  · intro h
    unfold trill_anyIsNil AnyBox.isNil
    rw [if_neg (by omega)]
    simp

/-- Claim C6, witness: a pointer-typed box with a zero word is not nil;
a value-typed box holding 0 is nil; a reference-typed box whose payload
pointer is null is nil. -/
theorem C6_wit :
    (0 < (AnyBox.mk tIntPtr 0).typeMetadata.pointerLevel
      ∧ trill_anyIsNil st0 (AnyBox.mk tIntPtr 0) = false)
    ∧ ((AnyBox.mk tInt 0).typeMetadata.pointerLevel = 0
      ∧ readWord st0.mem (AnyBox.mk tInt 0).valueAddr = 0
      ∧ trill_anyIsNil st0 (AnyBox.mk tInt 0) = true)
    ∧ ((AnyBox.mk tBoxRef 0).typeMetadata.pointerLevel = 0
      ∧ readWord st0.mem (AnyBox.mk tBoxRef 0).valueAddr = 0
      ∧ trill_anyIsNil st0 (AnyBox.mk tBoxRef 0) = true) :=
  ⟨⟨by decide, (C6_thm st0 (AnyBox.mk tIntPtr 0)).1 (by decide)⟩,
   ⟨by decide, by rfl,
    ((C6_thm st0 (AnyBox.mk tInt 0)).2 (by decide)).mpr (by rfl)⟩,
   ⟨by decide, by rfl,
    ((C6_thm st0 (AnyBox.mk tBoxRef 0)).2 (by decide)).mpr (by rfl)⟩⟩

/-- Claim C7: `trill_getFieldMetadata(T, i)` fatal-errors with the exact
message `"field index <i> out of bounds for type <name> with <n>
fields"` when `i ≥ fieldCount`, and returns the i-th field descriptor
when `i < fieldCount`. -/
theorem C7_thm (t : TypeMetadata) (i : Nat) :
    (t.fieldCount ≤ i →
      trill_getFieldMetadata t i = Except.error
        ("field index " ++ toString i ++ " out of bounds for type "
          ++ t.name ++ " with " ++ toString t.fieldCount ++ " fields"))
    ∧ (∀ f, i < t.fieldCount → t.fields[i]? = some f →
        trill_getFieldMetadata t i = Except.ok f) := by
  constructor
  · intro h
    unfold trill_getFieldMetadata TypeMetadata.fieldMetadata
    rw [if_pos h]
  · intro f hi hf
    unfold trill_getFieldMetadata TypeMetadata.fieldMetadata fieldAt
    rw [if_neg (by omega)]
    rw [List.getD_eq_getElem?_getD, hf]
    rfl

/-- Claim C7, witness: on the two-field descriptor, index 5 produces the
exact out-of-bounds message and index 1 returns the second field
descriptor. -/
theorem C7_wit :
    (tPoint.fieldCount ≤ 5
      ∧ trill_getFieldMetadata tPoint 5 = Except.error
          ("field index " ++ toString 5 ++ " out of bounds for type "
            ++ tPoint.name ++ " with " ++ toString tPoint.fieldCount
            ++ " fields"))
    ∧ (1 < tPoint.fieldCount ∧ tPoint.fields[1]? = some fldY
      ∧ trill_getFieldMetadata tPoint 1 = Except.ok fldY) :=
  ⟨⟨by decide, (C7_thm tPoint 5).1 (by decide)⟩,
   ⟨by decide, rfl, (C7_thm tPoint 1).2 fldY (by decide) rfl⟩⟩

/-- Claim C8, counterexample: `demangle` applied to `"_WF3foo4nameSi"`
fails (the runtime returns null) instead of producing
`"foo(name: Int)"`: the argument reads the name `name`, leaving the type
string `"Si"`, and the uppercase `S` begins no valid type.  The trace
never consults the two lookup tables, so the empty tables are faithful
here. -/
theorem C8_cex :
    trill_demangle noTable noTable ("_WF3foo4nameSi") = none := by rfl

/-- Claim C8, amended: `demangle("_WF3foo4nameSi")` fails (the
single-label marker `S` must precede the name, as the spec's own grammar
and pattern note say); `demangle("_WF3fooS4namesi")` yields exactly
`"foo(name: Int)"`; and `demangle("_WFD5Point")` yields exactly
`"Point.deinit"` — all independently of the two lookup tables. -/
theorem C8_thm (special ops : Char → Option String) :
    trill_demangle special ops ("_WF3foo4nameSi") = none
    ∧ trill_demangle special ops ("_WF3fooS4namesi") = some ("foo(name: Int)")
    ∧ trill_demangle special ops ("_WFD5Point") = some ("Point.deinit") :=
  ⟨rfl, rfl, rfl⟩

/-- Claim C9: `trill_alloc` zero-fills the returned block (the `memset`
in the source), hence the payloads of freshly allocated `Any` boxes and
ARC boxes are zero-filled, and `trill_anyIsNil` on a freshly allocated
non-pointer-typed `Any` (whose payload holds at least one machine word)
is true. -/
theorem C9_thm :
    (∀ (st : RuntimeState) (size x : Nat),
        st.nextFree ≤ x → x < st.nextFree + size →
        (trill_alloc st size).2.mem x = 0)
    ∧ (∀ (st : RuntimeState) (t : TypeMetadata) (x : Nat),
        (trill_allocateAny st t).1.valueAddr ≤ x →
        x < (trill_allocateAny st t).1.valueAddr + t.sizeInBits →
        (trill_allocateAny st t).2.mem x = 0)
    ∧ (∀ (st : RuntimeState) (size : Nat) (deinit : Option Nat) (x : Nat),
        (trill_allocateIndirectType st size deinit).1.payload ≤ x →
        x < (trill_allocateIndirectType st size deinit).1.payload + size →
        (trill_allocateIndirectType st size deinit).2.mem x = 0)
    ∧ (∀ (st : RuntimeState) (t : TypeMetadata),
        t.pointerLevel = 0 → 8 ≤ t.sizeInBits →
        trill_anyIsNil (trill_allocateAny st t).2 (trill_allocateAny st t).1
          = true) := by
  have hany : ∀ (st : RuntimeState) (t : TypeMetadata) (x : Nat),
      (trill_allocateAny st t).1.valueAddr ≤ x →
      x < (trill_allocateAny st t).1.valueAddr + t.sizeInBits →
      (trill_allocateAny st t).2.mem x = 0 := by
    intro st t x h1 h2
    have e1 : (trill_allocateAny st t).1.valueAddr
        = st.nextFree + anyHeaderSize := rfl
    rw [e1] at h1 h2
    show (trill_alloc st (anyHeaderSize + t.sizeInBits)).2.mem x = 0
    exact alloc_mem_in (by omega) (by omega)
  refine ⟨?_, hany, ?_, ?_⟩
  · intro st size x h1 h2
    exact alloc_mem_in h1 h2
  · intro st size deinit x h1 h2
    have e1 : (trill_allocateIndirectType st size deinit).1.payload
        = st.nextFree + refCountBoxSize := rfl
    rw [e1] at h1 h2
    show (trill_alloc st (refCountBoxSize + size)).2.mem x = 0
    exact alloc_mem_in (by omega) (by omega)
  · intro st t h0 h8
    unfold trill_anyIsNil AnyBox.isNil
    have hp : (trill_allocateAny st t).1.typeMetadata.pointerLevel = 0 := h0
    rw [if_neg (by omega)]
    have hzero : readWord (trill_allocateAny st t).2.mem
        (trill_allocateAny st t).1.valueAddr = 0 := by
      apply readWord_zero
      intro k hk
      exact hany st t _ (by omega) (by omega)
    rw [hzero]
    rfl

/-- Claim C9, witness: evaluating the four statements on a 100-byte heap
whose memory contents are non-trivial. -/
theorem C9_wit :
    (stG.nextFree ≤ 101 ∧ 101 < stG.nextFree + 4
      ∧ (trill_alloc stG 4).2.mem 101 = 0)
    ∧ ((trill_allocateAny stG tInt64).1.valueAddr ≤ 110
      ∧ 110 < (trill_allocateAny stG tInt64).1.valueAddr + tInt64.sizeInBits
      ∧ (trill_allocateAny stG tInt64).2.mem 110 = 0)
    ∧ ((trill_allocateIndirectType stG 16 (some 7)).1.payload ≤ 120
      ∧ 120 < (trill_allocateIndirectType stG 16 (some 7)).1.payload + 16
      ∧ (trill_allocateIndirectType stG 16 (some 7)).2.mem 120 = 0)
    ∧ (tInt64.pointerLevel = 0 ∧ 8 ≤ tInt64.sizeInBits
      ∧ trill_anyIsNil (trill_allocateAny stG tInt64).2
          (trill_allocateAny stG tInt64).1 = true) :=
  ⟨⟨by decide, by decide, C9_thm.1 stG 4 101 (by decide) (by decide)⟩,
   ⟨by decide, by decide,
    C9_thm.2.1 stG tInt64 110 (by decide) (by decide)⟩,
   ⟨by decide, by decide,
    C9_thm.2.2.1 stG 16 (some 7) 120 (by decide) (by decide)⟩,
   ⟨rfl, by decide, C9_thm.2.2.2 stG tInt64 rfl (by decide)⟩⟩

set_option maxHeartbeats 1000000 in
/-- Claim C4: for every `Any` box `A` and field index `i <
A.metadata.fieldCount`, `updateAny(A, i, extractAnyField(A, i))`
succeeds and leaves every pre-existing byte of the heap — in particular
every observable byte of A's payload (and, for a reference-typed `A`,
of the ARC payload its pointer designates) — unchanged; the metadata
slot of `A` is never written.  The hypotheses say the box is valid: the
field index is in bounds and, for a reference-typed `A`, the payload
word lies inside the allocated heap and holds a non-null pointer. -/
theorem C4_thm (st : RuntimeState) (a : AnyBox) (i : Nat)
    (hi : i < a.typeMetadata.fieldCount)
    (href : a.typeMetadata.isReferenceType = true →
        a.valueAddr + 8 ≤ st.nextFree ∧ readWord st.mem a.valueAddr ≠ 0) :
    ∃ (b : AnyBox) (st1 st2 : RuntimeState),
      trill_extractAnyField st a i = Except.ok (b, st1)
      ∧ b.typeMetadata = (fieldAt a.typeMetadata i).typeMetadata
      ∧ trill_updateAny st1 a i b = Except.ok st2
      ∧ ∀ x, x < st.nextFree → st2.mem x = st.mem x := by
  have hfm : a.typeMetadata.fieldMetadata i
      = Except.ok (fieldAt a.typeMetadata i) := by
    unfold TypeMetadata.fieldMetadata
    rw [if_neg (by omega)]
  have hmem1 : ∀ x, x < st.nextFree →
      (trill_allocateAny st (fieldAt a.typeMetadata i).typeMetadata).2.mem x
        = st.mem x := by
    intro x hx
    exact writeBytes_lt hx
  have hfv : ∀ (stX : RuntimeState),
      (a.typeMetadata.isReferenceType = true →
        readWord stX.mem a.valueAddr = readWord st.mem a.valueAddr) →
      a.fieldValuePtr stX i
        = Except.ok (fieldBase st a + (fieldAt a.typeMetadata i).offset) := by
    intro stX hX
    unfold AnyBox.fieldValuePtr
    rw [hfm]
    simp only [exceptBind_ok]
    by_cases hr : a.typeMetadata.isReferenceType = true
    · rw [if_pos hr, hX hr, if_neg (href hr).2]
      unfold fieldBase
      rw [if_pos hr]
    · rw [if_neg hr]
      unfold fieldBase
      rw [if_neg hr]
  have hword1 : a.typeMetadata.isReferenceType = true →
      readWord
        (trill_allocateAny st (fieldAt a.typeMetadata i).typeMetadata).2.mem
        a.valueAddr = readWord st.mem a.valueAddr := by
    intro hr
    refine readWord_congr fun k hk => ?_
    exact hmem1 _ (by have := (href hr).1; omega)
  have hext : trill_extractAnyField st a i
      = Except.ok
          ((trill_allocateAny st (fieldAt a.typeMetadata i).typeMetadata).1,
           { mem :=
               memcpy
                 (trill_allocateAny st
                   (fieldAt a.typeMetadata i).typeMetadata).2.mem
                 (trill_allocateAny st
                   (fieldAt a.typeMetadata i).typeMetadata).1.valueAddr
                 (fieldBase st a + (fieldAt a.typeMetadata i).offset)
                 (fieldAt a.typeMetadata i).typeMetadata.sizeInBits,
             nextFree :=
               (trill_allocateAny st
                 (fieldAt a.typeMetadata i).typeMetadata).2.nextFree }) := by
    unfold trill_extractAnyField AnyBox.extractField
    rw [hfm]
    simp only [exceptBind_ok]
    rw [hfv (trill_allocateAny st (fieldAt a.typeMetadata i).typeMetadata).2
          (fun hr => hword1 hr)]
    simp only [exceptBind_ok]
  have hmem2 : ∀ x, x < st.nextFree →
      memcpy
        (trill_allocateAny st (fieldAt a.typeMetadata i).typeMetadata).2.mem
        (trill_allocateAny st (fieldAt a.typeMetadata i).typeMetadata).1.valueAddr
        (fieldBase st a + (fieldAt a.typeMetadata i).offset)
        (fieldAt a.typeMetadata i).typeMetadata.sizeInBits x = st.mem x := by
    intro x hx
    rw [memcpy, writeBytes_lt
      (show x < (trill_allocateAny st
          (fieldAt a.typeMetadata i).typeMetadata).1.valueAddr from by
        show x < st.nextFree + anyHeaderSize
        omega)]
    exact hmem1 x hx
  have hword2 : a.typeMetadata.isReferenceType = true →
      readWord
        (memcpy
          (trill_allocateAny st (fieldAt a.typeMetadata i).typeMetadata).2.mem
          (trill_allocateAny st
            (fieldAt a.typeMetadata i).typeMetadata).1.valueAddr
          (fieldBase st a + (fieldAt a.typeMetadata i).offset)
          (fieldAt a.typeMetadata i).typeMetadata.sizeInBits)
        a.valueAddr = readWord st.mem a.valueAddr := by
    intro hr
    refine readWord_congr fun k hk => ?_
    exact hmem2 _ (by have := (href hr).1; omega)
  have hupd : trill_updateAny
      { mem :=
          memcpy
            (trill_allocateAny st (fieldAt a.typeMetadata i).typeMetadata).2.mem
            (trill_allocateAny st
              (fieldAt a.typeMetadata i).typeMetadata).1.valueAddr
            (fieldBase st a + (fieldAt a.typeMetadata i).offset)
            (fieldAt a.typeMetadata i).typeMetadata.sizeInBits,
        nextFree :=
          (trill_allocateAny st
            (fieldAt a.typeMetadata i).typeMetadata).2.nextFree } a i
      (trill_allocateAny st (fieldAt a.typeMetadata i).typeMetadata).1
      = Except.ok
          { mem :=
              memcpy
                (memcpy
                  (trill_allocateAny st
                    (fieldAt a.typeMetadata i).typeMetadata).2.mem
                  (trill_allocateAny st
                    (fieldAt a.typeMetadata i).typeMetadata).1.valueAddr
                  (fieldBase st a + (fieldAt a.typeMetadata i).offset)
                  (fieldAt a.typeMetadata i).typeMetadata.sizeInBits)
                (fieldBase st a + (fieldAt a.typeMetadata i).offset)
                (trill_allocateAny st
                  (fieldAt a.typeMetadata i).typeMetadata).1.valueAddr
                (fieldAt a.typeMetadata i).typeMetadata.sizeInBits,
            nextFree :=
              (trill_allocateAny st
                (fieldAt a.typeMetadata i).typeMetadata).2.nextFree } := by
    unfold trill_updateAny AnyBox.updateField
    rw [hfm]
    simp only [exceptBind_ok]
    rw [if_neg (show ¬ ((fieldAt a.typeMetadata i).typeMetadata.id
        ≠ (trill_allocateAny st
            (fieldAt a.typeMetadata i).typeMetadata).1.typeMetadata.id) from
      fun hne => hne rfl)]
    rw [hfv
      { mem :=
          memcpy
            (trill_allocateAny st (fieldAt a.typeMetadata i).typeMetadata).2.mem
            (trill_allocateAny st
              (fieldAt a.typeMetadata i).typeMetadata).1.valueAddr
            (fieldBase st a + (fieldAt a.typeMetadata i).offset)
            (fieldAt a.typeMetadata i).typeMetadata.sizeInBits,
        nextFree :=
          (trill_allocateAny st
            (fieldAt a.typeMetadata i).typeMetadata).2.nextFree }
      (fun hr => hword2 hr)]
    simp only [exceptBind_ok]
    rfl
  refine ⟨_, _, _, hext, rfl, hupd, ?_⟩
  intro x hx
  exact cow_roundtrip st.mem st.nextFree
    (fieldBase st a + (fieldAt a.typeMetadata i).offset)
    (fieldAt a.typeMetadata i).typeMetadata.sizeInBits
    (anyHeaderSize + (fieldAt a.typeMetadata i).typeMetadata.sizeInBits) x hx

/-- Claim C4, witness: the extract-then-update round trip evaluated on a
value-typed two-field struct over non-trivial memory, and on a
reference-typed box whose payload pointer designates an ARC payload at
address 40. -/
theorem C4_wit :
    (1 < (AnyBox.mk tPoint 0).typeMetadata.fieldCount
      ∧ ∃ (b : AnyBox) (st1 st2 : RuntimeState),
          trill_extractAnyField stG (AnyBox.mk tPoint 0) 1
            = Except.ok (b, st1)
          ∧ b.typeMetadata = (fieldAt (AnyBox.mk tPoint 0).typeMetadata 1).typeMetadata
          ∧ trill_updateAny st1 (AnyBox.mk tPoint 0) 1 b = Except.ok st2
          ∧ ∀ x, x < stG.nextFree → st2.mem x = stG.mem x)
    ∧ (1 < (AnyBox.mk tBoxRef 0).typeMetadata.fieldCount
      ∧ ∃ (b : AnyBox) (st1 st2 : RuntimeState),
          trill_extractAnyField stRef (AnyBox.mk tBoxRef 0) 1
            = Except.ok (b, st1)
          ∧ b.typeMetadata = (fieldAt (AnyBox.mk tBoxRef 0).typeMetadata 1).typeMetadata
          ∧ trill_updateAny st1 (AnyBox.mk tBoxRef 0) 1 b = Except.ok st2
          ∧ ∀ x, x < stRef.nextFree → st2.mem x = stRef.mem x) :=
  ⟨⟨by decide,
    C4_thm stG (AnyBox.mk tPoint 0) 1 (by decide)
      (fun h => absurd h (by decide))⟩,
   ⟨by decide,
    C4_thm stRef (AnyBox.mk tBoxRef 0) 1 (by decide)
      (fun h => ⟨by decide, by decide⟩)⟩⟩

end Trill
